import Mathlib

/-!
Verification of the AZ reconciliation control loop (`src/main.py`).

The program polls an ordered list of AWS availability zones until one reports
state `"available"`, then reconciles a set of named node templates in an
orchestration service so that each selected template's AZ constraint list
equals the single currently active zone.

External collaborators (the boto3 zone-state query and the orchestration REST
API) are modelled as oracle parameters:
* the zone probe is a function `String → Except String String` (zone name to
  probed state string, or a raised error),
* the per-template update outcome is a function `String → Bool` (template name
  to whether the PUT succeeded; a failed PUT is caught in the source and
  reported as `None`),
* the per-zone diagnostic state-file write of the scanner is a filesystem
  effect, modelled by an oracle for regular zone names, with its
  OS-determined failure on the empty zone name (opening the output directory
  itself) built in.

Fetched templates are JSON dictionaries in the source; the keys the program
touches (`template`, `name`, `constraints`, `azs`) are modelled as `Option`
fields, so a missing key can be represented, and every remaining field is an
opaque association list that the program never inspects.  Uncaught Python
exceptions (`KeyError`, `IndexError`) are modelled with an explicit error
type.
-/

/-- Python errors that escape the reconciliation pass uncaught
(`process_clusters` has no try/except of its own). -/
inductive PyErr where
  | keyError (k : String)
  | indexError
deriving Repr, DecidableEq

/-- The `constraints` dictionary of a fetched node template: the `azs` key
(absent keys allowed, the source reads it with `.get('azs', [])`) plus the
opaque remainder of constraint fields. -/
structure RawConstraints where
  azs : Option (List String)
  rest : List (String × String)
deriving Repr, DecidableEq

/-- The `template` dictionary of a fetched item: `name` and `constraints`
keys (read with `[...]` in the source, so absence raises `KeyError`) plus the
opaque remainder of template fields. -/
structure RawBody where
  name : Option String
  constraints : Option RawConstraints
  rest : List (String × String)
deriving Repr, DecidableEq

/-- One item of the fetched collection: its `template` key plus opaque
remainder. -/
structure RawTemplate where
  template : Option RawBody
  rest : List (String × String)
deriving Repr, DecidableEq

/-- A fetched item is well-formed when every key `process_clusters` reads with
`[...]` is present: `template`, and inside it `name` and `constraints`. -/
def wellFormedB (nt : RawTemplate) : Bool :=
  match nt.template with
  | none => false
  | some body => body.name.isSome && body.constraints.isSome

/-- One attempted update call of a reconciliation pass: the template name in
the URL, the submitted body (the fetched body after the in-place
`node_template['template']['constraints']['azs'] = current_active_az`
mutation), and whether the PUT succeeded. -/
structure UpdateCall where
  name : String
  body : RawBody
  ok : Bool
deriving Repr, DecidableEq

/-- `update_node_template` (src/main.py lines 76-99): sets the `azs` key of
the constraints dictionary to `current_active_az`, PUTs the template body, and
returns the response on success or `None` on a caught HTTP failure.  `c` is
the constraints dictionary (already read by the caller at line 115), and
`succeeds` is the oracle outcome of the PUT.  First component: the submitted
body; second component: the Python return value. -/
def update_node_template (body : RawBody) (c : RawConstraints)
    (activeAz : List String) (succeeds : Bool) : RawBody × Option RawBody :=
  let submitted : RawBody :=
    { body with constraints := some { c with azs := some activeAz } }
  (submitted, if succeeds then some submitted else none)

/-- Lines 124-130 of `process_clusters`: call `update_node_template` and
record the attempted call (template name, submitted body, truthiness of the
returned value — the source only branches on that truthiness, and continues
either way). -/
def attemptUpdate (nm : String) (body : RawBody) (c : RawConstraints)
    (activeAz : List String) (updOk : String → Bool) : UpdateCall :=
  ⟨nm, (update_node_template body c activeAz (updOk nm)).1,
    (update_node_template body c activeAz (updOk nm)).2.isSome⟩

/-- One iteration of the `for node_template in node_templates` loop of
`process_clusters` (src/main.py lines 112-130): read the `template`, `name`
and `constraints` keys (raising `KeyError` when absent), and for a selected
template apply the skip rule of line 120 — note Python's short-circuit `and`:
`current_active_az[0]` is evaluated, and can raise `IndexError`, only when the
current AZ list has exactly one element.  Returns `some call` when an update
was attempted, `none` when the template was skipped or not selected. -/
def processTemplate (names : List String) (activeAz : List String)
    (updOk : String → Bool) (nt : RawTemplate) :
    Except PyErr (Option UpdateCall) :=
  match nt.template with
  | none => .error (.keyError "template")
  | some body =>
    match body.name with
    | none => .error (.keyError "name")
    | some nm =>
      match body.constraints with
      | none => .error (.keyError "constraints")
      | some c =>
        if names.contains nm then
          match c.azs.getD [], activeAz with
          | [_], [] => .error .indexError
          | [az0], a :: _ =>
            if az0 = a then .ok none
            else .ok (some (attemptUpdate nm body c activeAz updOk))
          | _, _ => .ok (some (attemptUpdate nm body c activeAz updOk))
        else .ok none

/-- `process_clusters` (src/main.py lines 101-130) over an already-fetched
collection: iterate the fetched items in order, recording every attempted
update call; an uncaught Python error aborts the remainder of the pass.
Result: the attempted calls in order, and the escaped error if one was
raised.  (An empty fetched collection returns early at line 108-110, which
coincides with the empty loop.) -/
def process_clusters (names : List String) (activeAz : List String)
    (updOk : String → Bool) : List RawTemplate → List UpdateCall × Option PyErr
  | [] => ([], none)
  | nt :: rest =>
    match processTemplate names activeAz updOk nt with
    | .error e => ([], some e)
    | .ok none => process_clusters names activeAz updOk rest
    | .ok (some call) =>
      let r := process_clusters names activeAz updOk rest
      (call :: r.1, r.2)

/-- The zone probe: `check_az_state` (src/main.py lines 24-32) wraps the boto3
query and returns the state string; any failure of the query (unreachable
endpoint, or no matching zone record making `['AvailabilityZones'][0]` raise)
is an uncaught exception, modelled as `Except.error` with a message. -/
abbrev ZoneProbe := String → Except String String

/-- A probe built from a total assignment of state strings to zones (the case
in which no probe errors occur). -/
def pureProbe (f : String → String) : ZoneProbe := fun az => Except.ok (f az)

/-- Whether a zone's assigned state is `"available"`. -/
def availB (f : String → String) (az : String) : Bool := f az == "available"

/-- One pass of the `for az in az_list` loop of `find_available_zone`
(src/main.py lines 42-52): probe each zone in order; return the first zone
whose probed state is `"available"`; a probe error propagates (there is no
try/except around `check_az_state`); `none` when the whole list was probed
without a hit.  (The diagnostic state-file write of lines 46-47 is modelled
in `scanPassW` below.) -/
def scanPass (probe : ZoneProbe) : List String → Except String (Option String)
  | [] => .ok none
  | az :: rest =>
    match probe az with
    | .error e => .error e
    | .ok s => if s = "available" then .ok (some az) else scanPass probe rest

/-- The zones actually probed by one pass of the scan, in execution order:
the scan stops at the first `"available"` zone or at the first probe error. -/
def probedZones (probe : ZoneProbe) : List String → List String
  | [] => []
  | az :: rest =>
    match probe az with
    | .error _ => [az]
    | .ok s => if s = "available" then [az] else az :: probedZones probe rest

/-- Outcome of running the `while True` scan loop of `find_available_zone`
for a bounded number of passes: the function returned a zone, a probe
exception escaped it, or it is still looping (no zone available yet).  The
Python function can return only via `return az`; there is no `return None`
path. -/
inductive LoopResult where
  | returned (az : String)
  | raised (e : String)
  | running
deriving Repr, DecidableEq

/-- The `while True` loop of `find_available_zone` (src/main.py lines 41-55),
running passes `k, k+1, ...` while fuel remains; `probes n` is the probe
oracle during pass `n` (states are re-queried every cycle, no caching). -/
def find_available_zone_aux (azList : List String) (probes : Nat → ZoneProbe) :
    Nat → Nat → LoopResult
  | _, 0 => .running
  | k, fuel+1 =>
    match scanPass (probes k) azList with
    | .error e => .raised e
    | .ok (some az) => .returned az
    | .ok none => find_available_zone_aux azList probes (k+1) fuel

/-- `find_available_zone` observed for `fuel` passes, starting from pass 0. -/
def find_available_zone (azList : List String) (probes : Nat → ZoneProbe)
    (fuel : Nat) : LoopResult :=
  find_available_zone_aux azList probes 0 fuel

/-- The `current_active_az` computed by the body of `main`'s control loop
(src/main.py lines 152-158) from the scanner's returned zone: the guard is
Python truthiness `if available_zone:`, which for a string is "non-empty". -/
def mainActiveAz (z : String) : List String := if z ≠ "" then [z] else []

/-- Whether `main` takes the `else` branch ("No available zone found, no
updates will proceed in this cycle.") after the scanner returned zone `z`. -/
def noZoneBranchTaken (z : String) : Bool := z = ""

/-- Outcome of the configuration-loading phase of `main` (src/main.py lines
134-146): `cleanExit` is the caught-`ValueError` path (logged, `return`
before the loop); `uncaught` is an `AttributeError` escaping `main` (calling
`.split` on the `None` returned by `os.getenv` for a missing variable —
`AttributeError` is not caught by the `except ValueError` clause);
`loaded` enters the control loop. -/
inductive ConfigOutcome where
  | cleanExit
  | uncaught
  | loaded (apiKey clusterId : String) (names azs : List String)
deriving Repr, DecidableEq

/-- Python `str.split(sep)` for a one-character separator: never returns an
empty list (`"".split(",") == [""]`), which `String.splitOn` matches. -/
def splitComma (s : String) : List String := s.splitOn ","

/-- Python truthiness of `os.getenv`'s result: `None` and `""` are falsy. -/
def truthyStr : Option String → Bool
  | none => false
  | some s => s ≠ ""

/-- The configuration phase of `main` (src/main.py lines 134-146), with the
process environment as an oracle.  Evaluation order follows the source:
`API_KEY` and `CLUSTER_ID` are read first (no error possible), then
`NODE_TEMPLATE_NAMES` and `AZ_LIST` are read and split — `.split` on a
missing variable raises an uncaught `AttributeError` — and only then does the
`if not all([...])` check raise the `ValueError` that the `except` clause
catches and turns into a logged clean exit. -/
def loadConfig (env : String → Option String) : ConfigOutcome :=
  let apiKey := env "API_KEY"
  let clusterId := env "CLUSTER_ID"
  match env "NODE_TEMPLATE_NAMES" with
  | none => .uncaught
  | some ntn =>
    match env "AZ_LIST" with
    | none => .uncaught
    | some azl =>
      let names := splitComma ntn
      let azs := splitComma azl
      if truthyStr apiKey && truthyStr clusterId
          && !names.isEmpty && !azs.isEmpty then
        .loaded (apiKey.getD "") (clusterId.getD "") names azs
      else .cleanExit

/-- Whether `main` reaches the `while True` control loop of lines 151-162:
only when configuration loading succeeded. -/
def entersLoop (env : String → Option String) : Bool :=
  match loadConfig env with
  | .loaded _ _ _ _ => true
  | _ => false

/-- Sample selected template: name `"gpu-pool"`, current AZ list
`["us-east-1a"]`, one extra constraint field and one extra template field. -/
def tplOk : RawTemplate :=
  ⟨some ⟨some "gpu-pool", some ⟨some ["us-east-1a"], [("spot", "true")]⟩,
    [("id", "t1")]⟩, []⟩

/-- Sample malformed fetched item: its `template` dictionary has no
`constraints` key. -/
def tplBad : RawTemplate := ⟨some ⟨some "cpu-pool", none, []⟩, []⟩

/-- Sample probe: `"us-east-1a"` probes as `"impaired"`, every other zone
raises. -/
def probeW : ZoneProbe := fun z =>
  if z = "us-east-1a" then Except.ok "impaired" else Except.error "timeout"

/-- Sample probe oracle under which every zone probes `"available"` in every
pass. -/
def constAvailProbe : Nat → ZoneProbe := fun _ _ => Except.ok "available"

/-- Sample process environment in which `NODE_TEMPLATE_NAMES` is unset and
the other three required variables are set. -/
def envMissingNames : String → Option String := fun k =>
  if k = "API_KEY" then some "test-key"
  else if k = "CLUSTER_ID" then some "test-cluster"
  else if k = "AZ_LIST" then some "us-east-1a,us-east-1b"
  else none

/-- Sample process environment in which `API_KEY` is unset and the other
three required variables are set. -/
def envMissingKey : String → Option String := fun k =>
  if k = "CLUSTER_ID" then some "test-cluster"
  else if k = "NODE_TEMPLATE_NAMES" then some "gpu-pool"
  else if k = "AZ_LIST" then some "us-east-1a"
  else none

/-- The per-zone diagnostic write of `find_available_zone` (src/main.py
lines 46-47): `open(os.path.join("az-availability", az), 'w')` followed by
writing the probed state.  The filesystem outcome for a regular zone name
inside the directory created at startup is an external effect, modelled by
the `fsOk` oracle; but for the empty zone name the outcome is OS-determined:
the join yields the output directory path itself (`"az-availability/"`), and
opening a directory for writing always raises `IsADirectoryError`, before
the `return az` of line 52 can run. -/
def writeZoneState (fsOk : String → Bool) (az : String) : Except String Unit :=
  if az = "" then .error "IsADirectoryError"
  else if fsOk az then .ok () else .error "OSError"

/-- One pass of the `for az in az_list` loop of `find_available_zone`
(src/main.py lines 42-52) with the diagnostic file write of lines 46-47
included: probe the zone, write its state file (either step can raise, in
that order), then return the zone if its probed state is `"available"`. -/
def scanPassW (probe : ZoneProbe) (fsOk : String → Bool) :
    List String → Except String (Option String)
  | [] => .ok none
  | az :: rest =>
    match probe az with
    | .error e => .error e
    | .ok s =>
      match writeZoneState fsOk az with
      | .error e => .error e
      | .ok _ =>
        if s = "available" then .ok (some az) else scanPassW probe fsOk rest

/-- The `while True` loop of `find_available_zone` (src/main.py lines 41-55)
over the write-aware pass, running passes `k, k+1, ...` while fuel remains;
`probes n` and `fsOks n` are the probe and filesystem oracles during pass
`n`. -/
def find_available_zoneW_aux (azList : List String)
    (probes : Nat → ZoneProbe) (fsOks : Nat → String → Bool) :
    Nat → Nat → LoopResult
  | _, 0 => .running
  | k, fuel+1 =>
    match scanPassW (probes k) (fsOks k) azList with
    | .error e => .raised e
    | .ok (some az) => .returned az
    | .ok none => find_available_zoneW_aux azList probes fsOks (k+1) fuel

/-- `find_available_zone` with the diagnostic write modelled, observed for
`fuel` passes starting from pass 0. -/
def find_available_zoneW (azList : List String) (probes : Nat → ZoneProbe)
    (fsOks : Nat → String → Bool) (fuel : Nat) : LoopResult :=
  find_available_zoneW_aux azList probes fsOks 0 fuel

/-- Sample filesystem oracle under which every state-file write succeeds. -/
def constFsOk : Nat → String → Bool := fun _ _ => true

-- ===========================================================================
-- Theorems
-- ===========================================================================

/-- Helper: with an error-free probe, one scan pass returns the first zone
whose assigned state is `"available"`. -/
theorem scanPass_pure (f : String → String) (L : List String) :
    scanPass (pureProbe f) L = Except.ok (L.find? (availB f)) := by
  induction L with
  | nil => rfl
  | cons az rest ih =>
    simp only [scanPass, pureProbe, List.find?, availB]
    by_cases h : f az = "available"
    · simp [h]
    · have hb : (f az == "available") = false := by simp [h]
      simp [h, hb, ih]

/-- Helper: with an error-free probe, the zones probed in one pass are the
non-available ones before the first available zone, then that zone itself. -/
theorem probedZones_pure (f : String → String) (L : List String) :
    probedZones (pureProbe f) L =
      L.takeWhile (fun az => !(availB f az)) ++ (L.find? (availB f)).toList := by
  induction L with
  | nil => rfl
  | cons az rest ih =>
    simp only [probedZones, pureProbe, List.takeWhile, List.find?, availB]
    by_cases h : f az = "available"
    · simp [h]
    · have hb : (f az == "available") = false := by simp [h]
      simp [h, hb, ih, availB]

/-- Helper: with a constant error-free probe and no available zone in the
list, the scan loop keeps running for any amount of fuel. -/
theorem find_aux_none (f : String → String) (L : List String)
    (h : L.find? (availB f) = none) (k fuel : Nat) :
    find_available_zone_aux L (fun _ => pureProbe f) k fuel = .running := by
  induction fuel generalizing k with
  | zero => rfl
  | succ n ih =>
    simp only [find_available_zone_aux, scanPass_pure, h]
    exact ih (k+1)

/-- C3.  For every ordered zone list and every error-free assignment of
probed states to zones, the scan returns the first zone whose state is
`"available"` (and keeps looping when there is none), probes zones strictly
in list order, and probes no zone past the first available one: the probed
zones are exactly the non-available ones before the hit, then the hit. -/
theorem C3_scan_first_available (f : String → String) (L : List String)
    (fuel : Nat) :
    scanPass (pureProbe f) L = Except.ok (L.find? (availB f)) ∧
    probedZones (pureProbe f) L =
      L.takeWhile (fun az => !(availB f az)) ++ (L.find? (availB f)).toList ∧
    find_available_zone L (fun _ => pureProbe f) (fuel + 1) =
      (match L.find? (availB f) with
       | some z => LoopResult.returned z
       | none => LoopResult.running) := by
  refine ⟨scanPass_pure f L, probedZones_pure f L, ?_⟩
  unfold find_available_zone
  cases h : L.find? (availB f) with
  | none =>
    simp only [find_available_zone_aux, scanPass_pure, h]
    exact find_aux_none f L h 1 fuel
  | some z =>
    simp only [find_available_zone_aux, scanPass_pure, h]

/-- Helper: a pass iteration that raises aborts the rest of the pass. -/
theorem process_clusters_cons_error (names activeAz : List String)
    (updOk : String → Bool) (nt : RawTemplate) (rest : List RawTemplate)
    (e : PyErr) (h : processTemplate names activeAz updOk nt = .error e) :
    process_clusters names activeAz updOk (nt :: rest) = ([], some e) := by
  simp [process_clusters, h]

/-- Helper: a skipped or unselected template contributes nothing to the
pass. -/
theorem process_clusters_cons_skip (names activeAz : List String)
    (updOk : String → Bool) (nt : RawTemplate) (rest : List RawTemplate)
    (h : processTemplate names activeAz updOk nt = .ok none) :
    process_clusters names activeAz updOk (nt :: rest) =
      process_clusters names activeAz updOk rest := by
  simp [process_clusters, h]

/-- Helper: an attempted update is recorded and the pass continues. -/
theorem process_clusters_cons_call (names activeAz : List String)
    (updOk : String → Bool) (nt : RawTemplate) (rest : List RawTemplate)
    (call : UpdateCall)
    (h : processTemplate names activeAz updOk nt = .ok (some call)) :
    process_clusters names activeAz updOk (nt :: rest) =
      (call :: (process_clusters names activeAz updOk rest).1,
        (process_clusters names activeAz updOk rest).2) := by
  simp [process_clusters, h]

/-- Helper: a pass iteration ending in a probe-free error propagation —
one scan pass over a list whose zones all probe as some non-available state
up to a zone whose probe raises, raises that error. -/
theorem scanPass_error (probe : ZoneProbe) (L1 L2 : List String)
    (az : String) (e : String)
    (h1 : ∀ z ∈ L1, ∃ s, probe z = Except.ok s ∧ s ≠ "available")
    (h2 : probe az = Except.error e) :
    scanPass probe (L1 ++ az :: L2) = Except.error e := by
  induction L1 with
  | nil => simp [scanPass, h2]
  | cons z rest ih =>
    obtain ⟨s, hs, hns⟩ := h1 z (List.mem_cons_self z rest)
    simp only [List.cons_append, scanPass, hs, if_neg hns]
    exact ih (fun w hw => h1 w (List.mem_cons_of_mem z hw))

/-- C2, counterexample.  The claim "no probe error ever terminates the
process or escapes the scanning loop" is false: `find_available_zone` has no
try/except around `check_az_state`, so a probe failure escapes the loop as a
raised exception. -/
theorem C2_counterexample :
    ¬ ∀ (azList : List String) (probes : Nat → ZoneProbe) (fuel : Nat)
        (e : String),
        find_available_zone azList probes fuel ≠ LoopResult.raised e := by
  intro h
  exact h ["us-east-1a"] (fun _ _ => Except.error "probe failure") 1
    "probe failure" rfl

/-- C2, amended.  A probe failure is not caught: the zones before the failing
one are probed normally, and the first probe error encountered in a pass
escapes `find_available_zone` as an exception, terminating the scan (the
failing zone is not treated as not-available, and scanning does not continue
to the next zone). -/
theorem C2_probe_error_escapes (probe : ZoneProbe) (L1 L2 : List String)
    (az : String) (e : String) (fuel : Nat)
    (h1 : ∀ z ∈ L1, ∃ s, probe z = Except.ok s ∧ s ≠ "available")
    (h2 : probe az = Except.error e) :
    find_available_zone (L1 ++ az :: L2) (fun _ => probe) (fuel + 1) =
      LoopResult.raised e := by
  unfold find_available_zone find_available_zone_aux
  rw [scanPass_error probe L1 L2 az e h1 h2]

/-- C2, witness for the amended theorem at a concrete input. -/
theorem C2_probe_error_escapes_witness :
    (∀ z ∈ ["us-east-1a"], ∃ s, probeW z = Except.ok s ∧ s ≠ "available") ∧
    probeW "us-east-1b" = Except.error "timeout" ∧
    find_available_zone (["us-east-1a"] ++ "us-east-1b" :: [])
      (fun _ => probeW) (0 + 1) = LoopResult.raised "timeout" := by
  have h1 : ∀ z ∈ ["us-east-1a"], ∃ s, probeW z = Except.ok s ∧
      s ≠ "available" := by
    intro z hz
    simp only [List.mem_singleton] at hz
    subst hz
    exact ⟨"impaired", rfl, by decide⟩
  exact ⟨h1, rfl,
    C2_probe_error_escapes probeW ["us-east-1a"] [] "us-east-1b" "timeout" 0
      h1 rfl⟩

/-- Helper: a successful state-file write implies a non-empty zone name
(the empty name joins to the output directory itself, whose open always
fails). -/
theorem writeZoneState_ok_nonempty (fsOk : String → Bool) (az : String)
    (u : Unit) (h : writeZoneState fsOk az = Except.ok u) : az ≠ "" := by
  intro hEmpty
  subst hEmpty
  simp [writeZoneState] at h

/-- Helper: when one write-aware scan pass returns a zone, that zone is in
the list, its probe returned `"available"`, and — its state file having been
written on the way to the return — its name is non-empty. -/
theorem scanPassW_some (probe : ZoneProbe) (fsOk : String → Bool)
    (L : List String) (z : String)
    (h : scanPassW probe fsOk L = Except.ok (some z)) :
    z ∈ L ∧ probe z = Except.ok "available" ∧ z ≠ "" := by
  induction L with
  | nil => simp [scanPassW] at h
  | cons az rest ih =>
    simp only [scanPassW] at h
    cases hp : probe az with
    | error e => rw [hp] at h; exact absurd h (by simp)
    | ok s =>
      rw [hp] at h
      dsimp only at h
      cases hw : writeZoneState fsOk az with
      | error e => rw [hw] at h; exact absurd h (by simp)
      | ok u =>
        rw [hw] at h
        dsimp only at h
        by_cases hs : s = "available"
        · rw [if_pos hs] at h
          have hz : az = z := Option.some.inj (Except.ok.inj h)
          subst hz
          subst hs
          exact ⟨List.mem_cons_self az rest, hp,
            writeZoneState_ok_nonempty fsOk az u hw⟩
        · rw [if_neg hs] at h
          obtain ⟨hmem, hav, hne⟩ := ih h
          exact ⟨List.mem_cons_of_mem az hmem, hav, hne⟩

/-- Helper: when the write-aware scan loop returns a zone, that zone is in
the list, some pass probed it as `"available"`, and its name is non-empty. -/
theorem find_auxW_returned (azList : List String) (probes : Nat → ZoneProbe)
    (fsOks : Nat → String → Bool) (k fuel : Nat) (z : String)
    (h : find_available_zoneW_aux azList probes fsOks k fuel =
      LoopResult.returned z) :
    z ∈ azList ∧ (∃ n, probes n z = Except.ok "available") ∧ z ≠ "" := by
  induction fuel generalizing k with
  | zero => exact absurd h (by simp [find_available_zoneW_aux])
  | succ m ih =>
    simp only [find_available_zoneW_aux] at h
    cases hs : scanPassW (probes k) (fsOks k) azList with
    | error e => rw [hs] at h; exact absurd h (by simp)
    | ok o =>
      cases o with
      | none => rw [hs] at h; exact ih (k + 1) h
      | some az =>
        rw [hs] at h
        have hz : az = z := LoopResult.returned.inj h
        subst hz
        obtain ⟨hmem, hav, hne⟩ :=
          scanPassW_some (probes k) (fsOks k) azList az hs
        exact ⟨hmem, ⟨k, hav⟩, hne⟩

/-- C9.  Whenever `find_available_zone` returns, its result is a zone from
the configured list whose probe in some pass returned `"available"`, and it
never returns `None` (the only return statement carries a zone string).  The
diagnostic state-file write of lines 46-47 precedes the return and
deterministically raises for the empty zone name — the one falsy string — so
the returned zone name is always non-empty; hence in `main`'s control loop
`current_active_az` is the one-element list holding the returned zone
whenever `process_clusters` is called after a scan returned, and the
no-available-zone branch of the loop is unreachable. -/
theorem C9_scanner_return (azList : List String) (probes : Nat → ZoneProbe)
    (fsOks : Nat → String → Bool) (fuel : Nat) (z : String)
    (h : find_available_zoneW azList probes fsOks fuel =
      LoopResult.returned z) :
    z ∈ azList ∧ (∃ n, probes n z = Except.ok "available") ∧ z ≠ "" ∧
    mainActiveAz z = [z] ∧ (mainActiveAz z).length = 1 ∧
    noZoneBranchTaken z = false := by
  obtain ⟨hmem, hav, hne⟩ :=
    find_auxW_returned azList probes fsOks 0 fuel z h
  refine ⟨hmem, hav, hne, ?_⟩
  simp [mainActiveAz, noZoneBranchTaken, hne]

/-- C9, witness at a concrete input where the scan returns. -/
theorem C9_scanner_return_witness :
    find_available_zoneW ["us-east-1b"] constAvailProbe constFsOk 1 =
      LoopResult.returned "us-east-1b" ∧
    ("us-east-1b" ∈ ["us-east-1b"] ∧
      (∃ n, constAvailProbe n "us-east-1b" = Except.ok "available") ∧
      "us-east-1b" ≠ "" ∧
      mainActiveAz "us-east-1b" = ["us-east-1b"] ∧
      (mainActiveAz "us-east-1b").length = 1 ∧
      noZoneBranchTaken "us-east-1b" = false) := by
  refine ⟨by decide, ?_⟩
  exact C9_scanner_return ["us-east-1b"] constAvailProbe constFsOk 1
    "us-east-1b" (by decide)

/-- Helper: the attempted call record, spelled out — the `ok` field is the
oracle outcome of the PUT. -/
theorem attemptUpdate_eq (nm : String) (body : RawBody) (c : RawConstraints)
    (activeAz : List String) (updOk : String → Bool) :
    attemptUpdate nm body c activeAz updOk =
      ⟨nm, { body with constraints := some { c with azs := some activeAz } },
        updOk nm⟩ := by
  unfold attemptUpdate update_node_template
  cases h : updOk nm <;> simp [h]

/-- Helper: whenever a pass iteration attempts an update, the template was
selected, its keys were present, and the submitted body is the fetched body
with only the `azs` key of its constraints replaced by the active AZ list. -/
theorem processTemplate_update_shape (names activeAz : List String)
    (updOk : String → Bool) (nt : RawTemplate) (call : UpdateCall)
    (h : processTemplate names activeAz updOk nt = .ok (some call)) :
    names.contains call.name = true ∧
    ∃ body c, nt.template = some body ∧ body.name = some call.name ∧
      body.constraints = some c ∧
      call.body = ⟨body.name, some ⟨some activeAz, c.rest⟩, body.rest⟩ := by
  obtain ⟨t, rt⟩ := nt
  cases t with
  | none => exact absurd h (by simp [processTemplate])
  | some body =>
    obtain ⟨n, co, rb⟩ := body
    cases n with
    | none => exact absurd h (by simp [processTemplate])
    | some nm =>
      cases co with
      | none => exact absurd h (by simp [processTemplate])
      | some c =>
        simp only [processTemplate] at h
        by_cases hc : names.contains nm = true
        · rw [if_pos hc] at h
          cases haz : activeAz with
          | nil =>
            rw [haz] at h
            rcases hA : c.azs.getD [] with _ | ⟨x, _ | ⟨y, ys⟩⟩ <;>
              rw [hA] at h <;> dsimp only at h
            · rw [attemptUpdate_eq] at h
              have hcall := Option.some.inj (Except.ok.inj h)
              subst hcall
              exact ⟨hc, ⟨some nm, some c, rb⟩, c, rfl, rfl, rfl, rfl⟩
            · exact absurd h (by simp)
            · rw [attemptUpdate_eq] at h
              have hcall := Option.some.inj (Except.ok.inj h)
              subst hcall
              exact ⟨hc, ⟨some nm, some c, rb⟩, c, rfl, rfl, rfl, rfl⟩
          | cons a as =>
            rw [haz] at h
            rcases hA : c.azs.getD [] with _ | ⟨x, _ | ⟨y, ys⟩⟩ <;>
              rw [hA] at h <;> dsimp only at h
            · rw [attemptUpdate_eq] at h
              have hcall := Option.some.inj (Except.ok.inj h)
              subst hcall
              exact ⟨hc, ⟨some nm, some c, rb⟩, c, rfl, rfl, rfl, rfl⟩
            · by_cases hxa : x = a
              · rw [if_pos hxa] at h
                exact absurd h (by simp)
              · rw [if_neg hxa, attemptUpdate_eq] at h
                have hcall := Option.some.inj (Except.ok.inj h)
                subst hcall
                exact ⟨hc, ⟨some nm, some c, rb⟩, c, rfl, rfl, rfl, rfl⟩
            · rw [attemptUpdate_eq] at h
              have hcall := Option.some.inj (Except.ok.inj h)
              subst hcall
              exact ⟨hc, ⟨some nm, some c, rb⟩, c, rfl, rfl, rfl, rfl⟩
        · rw [if_neg hc] at h
          exact absurd h (by simp)

/-- Helper: a pass iteration that does not raise was applied to a well-formed
fetched item. -/
theorem processTemplate_ok_wellFormed (names activeAz : List String)
    (updOk : String → Bool) (nt : RawTemplate) (x : Option UpdateCall)
    (h : processTemplate names activeAz updOk nt = .ok x) :
    wellFormedB nt = true := by
  obtain ⟨t, rt⟩ := nt
  cases t with
  | none => exact absurd h (by simp [processTemplate])
  | some body =>
    obtain ⟨n, co, rb⟩ := body
    cases n with
    | none => exact absurd h (by simp [processTemplate])
    | some nm =>
      cases co with
      | none => exact absurd h (by simp [processTemplate])
      | some c => rfl

/-- Helper: a malformed fetched item makes the pass iteration raise a
`KeyError`. -/
theorem processTemplate_bad_raises (names activeAz : List String)
    (updOk : String → Bool) (nt : RawTemplate)
    (h : wellFormedB nt = false) :
    ∃ e, processTemplate names activeAz updOk nt = .error e := by
  obtain ⟨t, rt⟩ := nt
  cases t with
  | none => exact ⟨.keyError "template", rfl⟩
  | some body =>
    obtain ⟨n, co, rb⟩ := body
    cases n with
    | none => exact ⟨.keyError "name", rfl⟩
    | some nm =>
      cases co with
      | none => exact ⟨.keyError "constraints", rfl⟩
      | some c => simp [wellFormedB] at h

/-- Helper: a pass iteration's control flow and submitted body do not depend
on the update outcome oracle — only the recorded `ok` flag does. -/
theorem processTemplate_outcome_indep (names activeAz : List String)
    (f g : String → Bool) (nt : RawTemplate) :
    (processTemplate names activeAz f nt).map
        (Option.map (fun call => (call.name, call.body))) =
      (processTemplate names activeAz g nt).map
        (Option.map (fun call => (call.name, call.body))) := by
  obtain ⟨t, rt⟩ := nt
  cases t with
  | none => rfl
  | some body =>
    obtain ⟨n, co, rb⟩ := body
    cases n with
    | none => rfl
    | some nm =>
      cases co with
      | none => rfl
      | some c =>
        simp only [processTemplate]
        by_cases hc : names.contains nm = true
        · rw [if_pos hc, if_pos hc]
          cases activeAz with
          | nil =>
            rcases c.azs.getD [] with _ | ⟨x, _ | ⟨y, ys⟩⟩ <;>
              simp [attemptUpdate_eq, Except.map, Option.map]
          | cons a as =>
            rcases c.azs.getD [] with _ | ⟨x, _ | ⟨y, ys⟩⟩
            · simp [attemptUpdate_eq, Except.map, Option.map]
            · dsimp only
              by_cases hxa : x = a
              · rw [if_pos hxa, if_pos hxa]
              · rw [if_neg hxa, if_neg hxa]
                simp [attemptUpdate_eq, Except.map, Option.map]
            · simp [attemptUpdate_eq, Except.map, Option.map]
        · rw [if_neg hc, if_neg hc]

/-- C6.  Selector exclusivity: every update call attempted by a
reconciliation pass targets a template whose name is in the configured
selector; a fetched template whose name is absent from the selector is never
passed to the update call and never mutated, whatever its AZ constraint list
and whatever the active zone set. -/
theorem C6_selector_exclusive (names activeAz : List String)
    (updOk : String → Bool) (ts : List RawTemplate) (call : UpdateCall)
    (h : call ∈ (process_clusters names activeAz updOk ts).1) :
    names.contains call.name = true := by
  induction ts with
  | nil => simp [process_clusters] at h
  | cons nt rest ih =>
    cases hp : processTemplate names activeAz updOk nt with
    | error e =>
      rw [process_clusters_cons_error names activeAz updOk nt rest e hp] at h
      simp at h
    | ok o =>
      cases o with
      | none =>
        rw [process_clusters_cons_skip names activeAz updOk nt rest hp] at h
        exact ih h
      | some c0 =>
        rw [process_clusters_cons_call names activeAz updOk nt rest c0 hp] at h
        simp only [List.mem_cons] at h
        cases h with
        | inl heq =>
          subst heq
          exact (processTemplate_update_shape names activeAz updOk nt call
            hp).1
        | inr hmem => exact ih hmem

/-- C6, witness at a concrete input: one selected template with a
non-matching AZ list produces exactly its own update call, whose name is in
the selector. -/
theorem C6_selector_exclusive_witness :
    (⟨"gpu-pool", ⟨some "gpu-pool",
        some ⟨some ["us-east-1b"], [("spot", "true")]⟩, [("id", "t1")]⟩,
        true⟩ : UpdateCall) ∈
      (process_clusters ["gpu-pool"] ["us-east-1b"] (fun _ => true)
        [tplOk]).1 ∧
    (["gpu-pool"] : List String).contains "gpu-pool" = true := by
  refine ⟨by decide, ?_⟩
  exact C6_selector_exclusive ["gpu-pool"] ["us-east-1b"] (fun _ => true)
    [tplOk] ⟨"gpu-pool", ⟨some "gpu-pool",
      some ⟨some ["us-east-1b"], [("spot", "true")]⟩, [("id", "t1")]⟩, true⟩
    (by decide)

/-- C7.  Field preservation: every update call submitted by a reconciliation
pass carries the body of some fetched template in which only the `azs` key of
the constraints dictionary was replaced (by the active AZ list); the template
name, every other constraint field, and every other template field are those
of the fetched original. -/
theorem C7_field_preservation (names activeAz : List String)
    (updOk : String → Bool) (ts : List RawTemplate) (call : UpdateCall)
    (h : call ∈ (process_clusters names activeAz updOk ts).1) :
    ∃ nt, nt ∈ ts ∧ ∃ body c, nt.template = some body ∧
      body.name = some call.name ∧ body.constraints = some c ∧
      call.body = ⟨body.name, some ⟨some activeAz, c.rest⟩, body.rest⟩ := by
  induction ts with
  | nil => simp [process_clusters] at h
  | cons nt rest ih =>
    cases hp : processTemplate names activeAz updOk nt with
    | error e =>
      rw [process_clusters_cons_error names activeAz updOk nt rest e hp] at h
      simp at h
    | ok o =>
      cases o with
      | none =>
        rw [process_clusters_cons_skip names activeAz updOk nt rest hp] at h
        obtain ⟨nt1, hm, hrest⟩ := ih h
        exact ⟨nt1, List.mem_cons_of_mem nt hm, hrest⟩
      | some c0 =>
        rw [process_clusters_cons_call names activeAz updOk nt rest c0 hp] at h
        simp only [List.mem_cons] at h
        cases h with
        | inl heq =>
          subst heq
          exact ⟨nt, List.mem_cons_self nt rest,
            (processTemplate_update_shape names activeAz updOk nt call hp).2⟩
        | inr hmem =>
          obtain ⟨nt1, hm, hrest⟩ := ih hmem
          exact ⟨nt1, List.mem_cons_of_mem nt hm, hrest⟩

/-- C7, witness at a concrete input. -/
theorem C7_field_preservation_witness :
    (⟨"gpu-pool", ⟨some "gpu-pool",
        some ⟨some ["us-east-1b"], [("spot", "true")]⟩, [("id", "t1")]⟩,
        true⟩ : UpdateCall) ∈
      (process_clusters ["gpu-pool"] ["us-east-1b"] (fun _ => true)
        [tplOk]).1 ∧
    (∃ nt, nt ∈ [tplOk] ∧ ∃ body c, nt.template = some body ∧
      body.name = some "gpu-pool" ∧ body.constraints = some c ∧
      (⟨some "gpu-pool", some ⟨some ["us-east-1b"], [("spot", "true")]⟩,
        [("id", "t1")]⟩ : RawBody) =
        ⟨body.name, some ⟨some ["us-east-1b"], c.rest⟩, body.rest⟩) := by
  refine ⟨by decide, ?_⟩
  exact C7_field_preservation ["gpu-pool"] ["us-east-1b"] (fun _ => true)
    [tplOk] ⟨"gpu-pool", ⟨some "gpu-pool",
      some ⟨some ["us-east-1b"], [("spot", "true")]⟩, [("id", "t1")]⟩, true⟩
    (by decide)

/-- C8.  Fault isolation: the sequence of attempted updates (template names
and submitted bodies, in order) and whether the pass raises are identical
under every update outcome oracle — in particular, a failing update for item
i changes nothing about the attempts for items i+1..n, and never terminates
the pass. -/
theorem C8_fault_isolation (names activeAz : List String)
    (f g : String → Bool) (ts : List RawTemplate) :
    (process_clusters names activeAz f ts).1.map
        (fun call => (call.name, call.body)) =
      (process_clusters names activeAz g ts).1.map
        (fun call => (call.name, call.body)) ∧
    (process_clusters names activeAz f ts).2 =
      (process_clusters names activeAz g ts).2 := by
  induction ts with
  | nil => exact ⟨rfl, rfl⟩
  | cons nt rest ih =>
    have hind := processTemplate_outcome_indep names activeAz f g nt
    cases hf : processTemplate names activeAz f nt with
    | error e =>
      rw [hf] at hind
      cases hg : processTemplate names activeAz g nt with
      | error e2 =>
        rw [hg] at hind
        have he : e = e2 := by
          simpa [Except.map] using hind
        subst he
        rw [process_clusters_cons_error names activeAz f nt rest e hf,
          process_clusters_cons_error names activeAz g nt rest e hg]
        exact ⟨rfl, rfl⟩
      | ok o2 =>
        rw [hg] at hind
        exact absurd hind (by simp [Except.map])
    | ok o =>
      cases hg : processTemplate names activeAz g nt with
      | error e2 =>
        rw [hf, hg] at hind
        exact absurd hind (by simp [Except.map])
      | ok o2 =>
        rw [hf, hg] at hind
        cases o with
        | none =>
          cases o2 with
          | none =>
            rw [process_clusters_cons_skip names activeAz f nt rest hf,
              process_clusters_cons_skip names activeAz g nt rest hg]
            exact ih
          | some c2 => exact absurd hind (by simp [Except.map])
        | some c1 =>
          cases o2 with
          | none => exact absurd hind (by simp [Except.map])
          | some c2 =>
            have hcc : (c1.name, c1.body) = (c2.name, c2.body) := by
              simpa [Except.map] using hind
            rw [process_clusters_cons_call names activeAz f nt rest c1 hf,
              process_clusters_cons_call names activeAz g nt rest c2 hg]
            refine ⟨?_, ih.2⟩
            simp only [List.map_cons]
            rw [hcc, ih.1]

/-- Helper: a template that the pass skips contributes nothing to the pass,
wherever it sits in the fetched collection. -/
theorem process_clusters_splice_skip (names activeAz : List String)
    (updOk : String → Bool) (nt : RawTemplate)
    (h : processTemplate names activeAz updOk nt = .ok none) :
    ∀ l1 l2, process_clusters names activeAz updOk (l1 ++ nt :: l2) =
      process_clusters names activeAz updOk (l1 ++ l2) := by
  intro l1 l2
  induction l1 with
  | nil => exact process_clusters_cons_skip names activeAz updOk nt l2 h
  | cons hd tl ih =>
    cases hp : processTemplate names activeAz updOk hd with
    | error e =>
      rw [List.cons_append, List.cons_append,
        process_clusters_cons_error names activeAz updOk hd (tl ++ nt :: l2)
          e hp,
        process_clusters_cons_error names activeAz updOk hd (tl ++ l2) e hp]
    | ok o =>
      cases o with
      | none =>
        rw [List.cons_append, List.cons_append,
          process_clusters_cons_skip names activeAz updOk hd (tl ++ nt :: l2)
            hp,
          process_clusters_cons_skip names activeAz updOk hd (tl ++ l2) hp,
          ih]
      | some c0 =>
        rw [List.cons_append, List.cons_append,
          process_clusters_cons_call names activeAz updOk hd (tl ++ nt :: l2)
            c0 hp,
          process_clusters_cons_call names activeAz updOk hd (tl ++ l2) c0 hp,
          ih]

/-- C5.  Idempotence: a selected template whose current AZ constraint list
already equals the singleton `[z]` is skipped by a pass with
`activeZoneSet = [z]` — its iteration issues no update call, and the whole
pass over any fetched collection containing it behaves as if the template
were not there. -/
theorem C5_idempotent (names : List String) (z : String)
    (updOk : String → Bool) (nm : String)
    (crest rb rt : List (String × String))
    (hsel : names.contains nm = true) :
    processTemplate names [z] updOk
        ⟨some ⟨some nm, some ⟨some [z], crest⟩, rb⟩, rt⟩ = Except.ok none ∧
    ∀ l1 l2, process_clusters names [z] updOk
        (l1 ++ ⟨some ⟨some nm, some ⟨some [z], crest⟩, rb⟩, rt⟩ :: l2) =
      process_clusters names [z] updOk (l1 ++ l2) := by
  have h1 : processTemplate names [z] updOk
      ⟨some ⟨some nm, some ⟨some [z], crest⟩, rb⟩, rt⟩ = Except.ok none := by
    simp [processTemplate, hsel]
  exact ⟨h1, process_clusters_splice_skip names [z] updOk _ h1⟩

/-- C5, witness at a concrete input. -/
theorem C5_idempotent_witness :
    (["gpu-pool"] : List String).contains "gpu-pool" = true ∧
    processTemplate ["gpu-pool"] ["us-east-1a"] (fun _ => true)
        ⟨some ⟨some "gpu-pool", some ⟨some ["us-east-1a"], []⟩, []⟩, []⟩ =
      Except.ok none ∧
    process_clusters ["gpu-pool"] ["us-east-1a"] (fun _ => true)
        ([] ++ ⟨some ⟨some "gpu-pool", some ⟨some ["us-east-1a"], []⟩, []⟩,
          []⟩ :: []) =
      process_clusters ["gpu-pool"] ["us-east-1a"] (fun _ => true)
        ([] ++ []) := by
  refine ⟨by decide, ?_, ?_⟩
  · exact (C5_idempotent ["gpu-pool"] "us-east-1a" (fun _ => true) "gpu-pool"
      [] [] [] (by decide)).1
  · exact (C5_idempotent ["gpu-pool"] "us-east-1a" (fun _ => true) "gpu-pool"
      [] [] [] (by decide)).2 [] []

/-- C1, counterexample.  With an empty `activeZoneSet` and a non-empty
fetched collection holding one selected template whose current AZ list is the
singleton `["us-east-1a"]` (which does not match the empty target), the pass
raises an uncaught `IndexError` (from `current_active_az[0]` on line 120) and
issues no update — it does not complete an update to the empty list, and it
does raise. -/
theorem C1_counterexample :
    process_clusters ["gpu-pool"] [] (fun _ => true) [tplOk] =
      ([], some PyErr.indexError) ∧
    some PyErr.indexError ≠ (none : Option PyErr) := by
  exact ⟨by decide, by decide⟩

/-- C1, amended.  With an empty `activeZoneSet` the pass still runs the
fetch/compare loop: a selected template whose current AZ list does not have
exactly one element is updated to the empty AZ constraint list (the skip
comparison is short-circuited); but a selected template whose current AZ list
has exactly one element makes the comparison evaluate
`current_active_az[0]`, raising an uncaught `IndexError` that aborts the pass
with no updates recorded for it or any later template. -/
theorem C1_empty_active_az (names : List String) (updOk : String → Bool)
    (nm : String) (c : RawConstraints) (rb rt : List (String × String))
    (hsel : names.contains nm = true) :
    ((c.azs.getD []).length ≠ 1 →
      processTemplate names [] updOk ⟨some ⟨some nm, some c, rb⟩, rt⟩ =
        Except.ok (some ⟨nm, ⟨some nm, some ⟨some [], c.rest⟩, rb⟩,
          updOk nm⟩)) ∧
    ((c.azs.getD []).length = 1 →
      ∀ rest, process_clusters names [] updOk
          (⟨some ⟨some nm, some c, rb⟩, rt⟩ :: rest) =
        ([], some PyErr.indexError)) := by
  constructor
  · intro hlen
    simp only [processTemplate]
    rw [if_pos hsel]
    rcases hA : c.azs.getD [] with _ | ⟨x, _ | ⟨y, ys⟩⟩
    · dsimp only
      rw [attemptUpdate_eq]
    · rw [hA] at hlen
      simp at hlen
    · dsimp only
      rw [attemptUpdate_eq]
  · intro hlen rest
    rcases hA : c.azs.getD [] with _ | ⟨x, _ | ⟨y, ys⟩⟩
    · rw [hA] at hlen
      simp at hlen
    · have hp : processTemplate names [] updOk
          ⟨some ⟨some nm, some c, rb⟩, rt⟩ = .error .indexError := by
        simp only [processTemplate]
        rw [if_pos hsel, hA]
      exact process_clusters_cons_error names [] updOk _ rest
        PyErr.indexError hp
    · rw [hA] at hlen
      simp at hlen

/-- C1, witness for the amended theorem at concrete inputs: a selected
template with an empty current AZ list is updated to the empty list, and a
selected template with a singleton current AZ list aborts the pass with an
`IndexError`. -/
theorem C1_empty_active_az_witness :
    (["gpu-pool"] : List String).contains "gpu-pool" = true ∧
    processTemplate ["gpu-pool"] [] (fun _ => true)
        ⟨some ⟨some "gpu-pool", some ⟨some [], []⟩, []⟩, []⟩ =
      Except.ok (some ⟨"gpu-pool",
        ⟨some "gpu-pool", some ⟨some [], []⟩, []⟩, true⟩) ∧
    process_clusters ["gpu-pool"] [] (fun _ => true)
        (⟨some ⟨some "gpu-pool", some ⟨some ["us-east-1a"], []⟩, []⟩, []⟩ ::
          []) =
      ([], some PyErr.indexError) := by
  refine ⟨by decide, ?_, ?_⟩
  · exact (C1_empty_active_az ["gpu-pool"] (fun _ => true) "gpu-pool"
      ⟨some [], []⟩ [] [] (by decide)).1 (by decide)
  · exact (C1_empty_active_az ["gpu-pool"] (fun _ => true) "gpu-pool"
      ⟨some ["us-east-1a"], []⟩ [] [] (by decide)).2 (by decide) []

/-- C4.  Evaluating the configuration phase at the failing input: with
`NODE_TEMPLATE_NAMES` unset (and the other three variables set), `main` does
not take the logged clean-exit path — `os.getenv(...)` returns `None` and
`.split(",")` raises an `AttributeError` that the `except ValueError` clause
does not catch; the control loop is still never entered.  By contrast, with
only `API_KEY` unset the `all([...])` check raises the `ValueError` that is
caught and logged, the clean exit the claim describes. -/
theorem C4_config_outcomes :
    loadConfig envMissingNames = ConfigOutcome.uncaught ∧
    ConfigOutcome.uncaught ≠ ConfigOutcome.cleanExit ∧
    entersLoop envMissingNames = false ∧
    loadConfig envMissingKey = ConfigOutcome.cleanExit ∧
    entersLoop envMissingKey = false := by
  exact ⟨by decide, by decide, by decide, by decide, by decide⟩

/-- C10.  A reconciliation pass completes without raising only if every
fetched item carries the `template`, `name` and `constraints` keys; and a
fetched collection containing an item missing one of these keys makes the
pass raise an uncaught error (unlike fetch and update failures, which are
caught). -/
theorem C10_template_keys (names activeAz : List String)
    (updOk : String → Bool) (ts : List RawTemplate) :
    ((process_clusters names activeAz updOk ts).2 = none →
      ∀ nt ∈ ts, wellFormedB nt = true) ∧
    ((∃ nt ∈ ts, wellFormedB nt = false) →
      ((process_clusters names activeAz updOk ts).2).isSome = true) := by
  induction ts with
  | nil =>
    constructor
    · intro _ nt hm
      simp at hm
    · rintro ⟨nt, hm, _⟩
      simp at hm
  | cons nt rest ih =>
    constructor
    · intro h2 nt1 hm
      cases hp : processTemplate names activeAz updOk nt with
      | error e =>
        rw [process_clusters_cons_error names activeAz updOk nt rest e hp]
          at h2
        simp at h2
      | ok o =>
        have hw := processTemplate_ok_wellFormed names activeAz updOk nt o hp
        rcases List.mem_cons.mp hm with rfl | h
        · exact hw
        · cases o with
          | none =>
            rw [process_clusters_cons_skip names activeAz updOk nt rest hp]
              at h2
            exact ih.1 h2 nt1 h
          | some c0 =>
            rw [process_clusters_cons_call names activeAz updOk nt rest c0
              hp] at h2
            exact ih.1 h2 nt1 h
    · rintro ⟨nt1, hm, hbad⟩
      rcases List.mem_cons.mp hm with rfl | h
      · obtain ⟨e, he⟩ :=
          processTemplate_bad_raises names activeAz updOk nt1 hbad
        rw [process_clusters_cons_error names activeAz updOk nt1 rest e he]
        rfl
      · cases hp : processTemplate names activeAz updOk nt with
        | error e =>
          rw [process_clusters_cons_error names activeAz updOk nt rest e hp]
          rfl
        | ok o =>
          cases o with
          | none =>
            rw [process_clusters_cons_skip names activeAz updOk nt rest hp]
            exact ih.2 ⟨nt1, h, hbad⟩
          | some c0 =>
            rw [process_clusters_cons_call names activeAz updOk nt rest c0 hp]
            exact ih.2 ⟨nt1, h, hbad⟩

/-- C10, witness at concrete inputs: a well-formed collection completes with
no raised error and its item is well-formed; a collection holding an item
with no `constraints` key raises. -/
theorem C10_template_keys_witness :
    ((process_clusters ["gpu-pool"] ["us-east-1b"] (fun _ => true)
        [tplOk]).2 = none ∧ wellFormedB tplOk = true) ∧
    ((∃ nt ∈ [tplBad], wellFormedB nt = false) ∧
      ((process_clusters ["gpu-pool"] ["us-east-1b"] (fun _ => true)
        [tplBad]).2).isSome = true) := by
  refine ⟨⟨by decide, ?_⟩, ⟨⟨tplBad, by decide, by decide⟩, ?_⟩⟩
  · exact (C10_template_keys ["gpu-pool"] ["us-east-1b"] (fun _ => true)
      [tplOk]).1 (by decide) tplOk (by decide)
  · exact (C10_template_keys ["gpu-pool"] ["us-east-1b"] (fun _ => true)
      [tplBad]).2 ⟨tplBad, by decide, by decide⟩
